import Mathlib

/-!
Verification of `metaflow/plugins/aws/batch/batch_cli.py` (the `step` command).

The development shallowly embeds, from the source:
  * the input-paths argument encoder (lines 180-188),
  * the retry backoff logic (lines 197-234),
  * the environment merge passed to the backend (lines 220-228),
  * the launch / wait / finally exit-path machine (lines 248-295),
and proves the specified properties about them.
-/

namespace MetaflowBatch

/-! ## Argument Encoder (batch_cli.py lines 180-188)

Python strings are modelled as `List Char` (Python slicing is by code point);
`max_size` is the per-variable chunk ceiling `30 * 1024` from the source. -/

/-- Chunk ceiling: `max_size = 30 * 1024` in the source. -/
def max_size : Nat := 30 * 1024

/-- Embedding of Python `range(start, stop, step)` for a positive `step`:
the arithmetic progression `start, start + step, ...` below `stop`. -/
def pyRange (start stop step : Nat) : List Nat :=
  (List.range ((stop - start + step - 1) / step)).map (fun j => start + j * step)

/-- Key generation `"METAFLOW_INPUT_PATHS_%d" % j` from the source. -/
def mkInputPathsKey (j : Nat) : String :=
  "METAFLOW_INPUT_PATHS_" ++ toString j

/-- Embedding of the dict comprehension
`{"METAFLOW_INPUT_PATHS_%d" % (i // max_size): input_paths[i : i + max_size]
  for i in range(0, len(input_paths), max_size)}`,
as the ordered list of key/value pairs (Python dicts preserve insertion order). -/
def splitVars (c : Nat) (s : List Char) : List (String × List Char) :=
  (pyRange 0 s.length c).map (fun i => (mkInputPathsKey (i / c), (s.drop i).take c))

/-- Embedding of `"".join("${%s}" % s for s in split_vars.keys())`. -/
def reconstructionExpr (sv : List (String × List Char)) : String :=
  String.join (sv.map (fun kv => "$\x7b" ++ kv.1 ++ "\x7d"))

/-- Embedding of lines 180-188: reads `kwargs.get("input_paths")`, and when the
value is truthy (present and non-empty) produces the chunk mapping and replaces
`kwargs["input_paths"]` by the reconstruction expression; otherwise both the
chunk mapping (`split_vars = None`) and the parameter are left untouched.
Returns `(split_vars, kwargs["input_paths"])`. -/
def encodeInputPaths (input_paths : Option String) :
    Option (List (String × List Char)) × Option String :=
  match input_paths with
  | none => (none, none)
  | some s =>
    if s.isEmpty then (none, some s)
    else
      let sv := splitVars max_size s.toList
      (some sv, some (reconstructionExpr sv))

/-- Embedding of lines 180-188 with the single Python partiality point made
explicit: `range(0, n, step)` raises `ValueError` iff `step == 0`. Every other
operation used by the encoder (slicing, `//`, `%`-formatting, `join`) is total
in Python. -/
def encodeInputPathsChecked (c : Nat) (input_paths : Option String) :
    Except String (Option (List (String × List Char)) × Option String) :=
  match input_paths with
  | none => .ok (none, none)
  | some s =>
    if s.isEmpty then .ok (none, some s)
    else if c = 0 then .error "ValueError: range arg 3 must not be zero"
    else
      let sv := splitVars c s.toList
      .ok (some sv, some (reconstructionExpr sv))

/-- Proof-side reformulation of the chunk values: the `j`-th chunk is
`(s.drop (j * c)).take c`. -/
def chunkList (c : Nat) (s : List Char) : List (List Char) :=
  (List.range ((s.length + c - 1) / c)).map (fun j => (s.drop (j * c)).take c)

lemma splitVars_eq_range (c : Nat) (hc : 0 < c) (s : List Char) :
    splitVars c s = (List.range ((s.length + c - 1) / c)).map
      (fun j => (mkInputPathsKey j, (s.drop (j * c)).take c)) := by
  unfold splitVars pyRange
  rw [List.map_map]
  simp only [Nat.sub_zero]
  congr 1
  funext j
  simp [Nat.mul_div_cancel _ hc]

lemma ceil_div_succ (c len : Nat) (hc : 0 < c) (hlen : 0 < len) :
    (len + c - 1) / c = (len - c + c - 1) / c + 1 := by
  have e1 : len + c - 1 = (len - 1) + c := by omega
  rw [e1, Nat.add_div_right _ hc]
  rcases Nat.le_total c len with h | h
  · have e2 : len - c + c - 1 = len - 1 := by omega
    rw [e2]
  · have e2 : len - c = 0 := by omega
    rw [e2]
    have h3 : (len - 1) / c = 0 := Nat.div_eq_of_lt (by omega)
    have h4 : (0 + c - 1) / c = 0 := Nat.div_eq_of_lt (by omega)
    rw [h3, h4]

lemma chunkList_nil (c : Nat) (hc : 0 < c) : chunkList c [] = [] := by
  unfold chunkList
  have h : (([] : List Char).length + c - 1) / c = 0 := Nat.div_eq_of_lt (by simp; omega)
  rw [h]
  rfl

lemma chunkList_cons (c : Nat) (hc : 0 < c) (s : List Char) (hs : s ≠ []) :
    chunkList c s = s.take c :: chunkList c (s.drop c) := by
  have hlen : 0 < s.length := List.length_pos.mpr hs
  unfold chunkList
  rw [List.length_drop, ceil_div_succ c s.length hc hlen, List.range_succ_eq_map,
      List.map_cons, List.map_map]
  refine congrArg₂ List.cons (by simp) ?_
  congr 1
  funext j
  have h1 : (Nat.succ j) * c = c + j * c := by rw [Nat.succ_mul, Nat.add_comm]
  simp only [Function.comp, h1, List.drop_drop]

lemma chunkList_flatten (c : Nat) (hc : 0 < c) (s : List Char) :
    (chunkList c s).flatten = s := by
  have H : ∀ n, ∀ s : List Char, s.length ≤ n → (chunkList c s).flatten = s := by
    intro n
    induction n with
    | zero =>
      intro s hs
      have hnil : s = [] := List.eq_nil_of_length_eq_zero (by omega)
      subst hnil
      rw [chunkList_nil c hc]
      rfl
    | succ n ih =>
      intro s hs
      rcases eq_or_ne s [] with rfl | hne
      · rw [chunkList_nil c hc]
        rfl
      · have hlen : 0 < s.length := List.length_pos.mpr hne
        rw [chunkList_cons c hc s hne, List.flatten_cons,
            ih (s.drop c) (by rw [List.length_drop]; omega)]
        exact List.take_append_drop c s
  exact H s.length s le_rfl

lemma splitVars_map_snd (c : Nat) (hc : 0 < c) (s : List Char) :
    (splitVars c s).map Prod.snd = chunkList c s := by
  rw [splitVars_eq_range c hc s]
  unfold chunkList
  rw [List.map_map]
  rfl

/-! ## Step decorators, retry backoff (lines 197-234) and environment merge (lines 220-228)

A decorator is modelled as a typed view of the attribute dict the code reads:
`attributes.get("minutes_between_retries", 1)` for a `retry` decorator and
`attributes["vars"]` for an `environment` decorator. -/

structure Decorator where
  name : String
  minutes_between_retries : Option Nat
  vars : List (String × String)
  deriving DecidableEq, Repr

/-- Observable actions of the backoff block: the `echo_always` notice
(`"Sleeping %d minutes before the next AWS Batch retry"`) and the
`time.sleep` call with its duration in seconds. -/
inductive SleepEvent where
  | notice (minutes : Nat)
  | sleep (seconds : Nat)
  deriving DecidableEq, Repr

/-- Embedding of lines 197-234: `minutes_between_retries` is `None` when the
step has no `retry` decorator, else the decorator's attribute with default 1;
when `retry_count` is truthy the code formats the notice with `%d` (a
`TypeError` on `None`) and sleeps `minutes_between_retries * 60` seconds. -/
def retryBackoff (decos : List Decorator) (retry_count : Nat) :
    Except String (List SleepEvent) :=
  let retry_deco := decos.filter (fun d => d.name == "retry")
  let minutes_between_retries : Option Nat :=
    match retry_deco with
    | [] => none
    | d :: _ => some (d.minutes_between_retries.getD 1)
  if retry_count ≠ 0 then
    match minutes_between_retries with
    | some m => .ok [.notice m, .sleep (m * 60)]
    | none => .error "TypeError: unsupported format string operand None"
  else .ok []

/-- Python `d[k] = v` on an insertion-ordered dict: replace the value in place
when the key is present, else append the binding. -/
def dictSet (d : List (String × String)) (k v : String) : List (String × String) :=
  if d.any (fun kv => kv.1 == k) then
    d.map (fun kv => if kv.1 = k then (kv.1, v) else kv)
  else d ++ [(k, v)]

/-- Python `d.update(u)`: set each binding of `u` in order. -/
def pyUpdate (d u : List (String × String)) : List (String × String) :=
  u.foldl (fun acc kv => dictSet acc kv.1 kv.2) d

/-- Embedding of lines 220-224: `env` is the `vars` attribute of the first
`environment` decorator, or `{}` when there is none. -/
def declaredEnv (decos : List Decorator) : List (String × String) :=
  match decos.filter (fun d => d.name == "environment") with
  | [] => []
  | d :: _ => d.vars

/-- Embedding of lines 220-228: the environment mapping handed to
`batch.launch_job` is the declared environment updated with the chunk mapping
when `split_vars` is truthy (`if split_vars: env.update(split_vars)`). -/
def stepEnv (decos : List Decorator) (split_vars : Option (List (String × String))) :
    List (String × String) :=
  let env := declaredEnv decos
  match split_vars with
  | none => env
  | some sv => if sv.isEmpty then env else pyUpdate env sv

lemma keys_dictSet (d : List (String × String)) (k v k' : String) :
    k' ∈ (dictSet d k v).map Prod.fst ↔ k' ∈ d.map Prod.fst ∨ k' = k := by
  unfold dictSet
  split
  · next h =>
    rw [List.any_eq_true] at h
    obtain ⟨kv, hkv, hk⟩ := h
    rw [beq_iff_eq] at hk
    have hmap : (d.map (fun kv => if kv.1 = k then (kv.1, v) else kv)).map Prod.fst
        = d.map Prod.fst := by
      rw [List.map_map]
      refine List.map_congr_left ?_
      intro a _
      show (if a.1 = k then (a.1, v) else a).1 = a.1
      split <;> rfl
    rw [hmap]
    constructor
    · exact Or.inl
    · rintro (h | rfl)
      · exact h
      · exact hk ▸ List.mem_map_of_mem Prod.fst hkv
  · simp [List.mem_append, or_comm, eq_comm]

lemma lookup_mapReplace_ne (d : List (String × String)) (k v k' : String)
    (h : k' ≠ k) :
    (d.map (fun kv => if kv.1 = k then (kv.1, v) else kv)).lookup k' = d.lookup k' := by
  induction d with
  | nil => rfl
  | cons hd tl ih =>
    obtain ⟨k0, v0⟩ := hd
    by_cases h0 : k0 = k
    · subst h0
      simp [List.lookup_cons, beq_false_of_ne h, ih]
    · by_cases h1 : k' = k0
      · subst h1
        simp [List.lookup_cons, h0]
      · simp [List.lookup_cons, h0, beq_false_of_ne h1, ih]

lemma lookup_mapReplace_self (d : List (String × String)) (k v : String)
    (h : k ∈ d.map Prod.fst) :
    (d.map (fun kv => if kv.1 = k then (kv.1, v) else kv)).lookup k = some v := by
  induction d with
  | nil => simp at h
  | cons hd tl ih =>
    obtain ⟨k0, v0⟩ := hd
    by_cases h0 : k0 = k
    · subst h0
      simp [List.lookup_cons]
    · have hk : k ∈ tl.map Prod.fst := by
        have h' : k = k0 ∨ ∃ x, (k, x) ∈ tl := by simpa using h
        rcases h' with h1 | ⟨x, hx⟩
        · exact absurd h1.symm h0
        · exact List.mem_map.mpr ⟨(k, x), hx, rfl⟩
      simp [List.lookup_cons, h0, beq_false_of_ne (fun e => h0 e.symm), ih hk]

lemma lookup_append_of_ne (d : List (String × String)) (k v k' : String)
    (h : k' ≠ k) : (d ++ [(k, v)]).lookup k' = d.lookup k' := by
  induction d with
  | nil => simp [List.lookup_cons, beq_false_of_ne h]
  | cons hd tl ih =>
    obtain ⟨k0, v0⟩ := hd
    by_cases h1 : k' = k0
    · subst h1
      simp [List.lookup_cons]
    · simp [List.lookup_cons, beq_false_of_ne h1, ih]

lemma lookup_append_self (d : List (String × String)) (k v : String)
    (h : k ∉ d.map Prod.fst) : (d ++ [(k, v)]).lookup k = some v := by
  induction d with
  | nil => simp [List.lookup_cons]
  | cons hd tl ih =>
    obtain ⟨k0, v0⟩ := hd
    have h0 : k ≠ k0 := by
      intro e
      exact h (by simp [e])
    have htl : k ∉ tl.map Prod.fst := by
      intro hc
      exact h (by simp; exact Or.inr (by simpa using hc))
    simp [List.lookup_cons, beq_false_of_ne h0, ih htl]

lemma lookup_dictSet_ne (d : List (String × String)) (k v k' : String)
    (h : k' ≠ k) : (dictSet d k v).lookup k' = d.lookup k' := by
  unfold dictSet
  split
  · exact lookup_mapReplace_ne d k v k' h
  · exact lookup_append_of_ne d k v k' h

lemma lookup_dictSet_self (d : List (String × String)) (k v : String) :
    (dictSet d k v).lookup k = some v := by
  unfold dictSet
  split
  · next h =>
    rw [List.any_eq_true] at h
    obtain ⟨kv, hkv, hk⟩ := h
    rw [beq_iff_eq] at hk
    exact lookup_mapReplace_self d k v (hk ▸ List.mem_map_of_mem Prod.fst hkv)
  · next h =>
    refine lookup_append_self d k v ?_
    intro hc
    rcases List.mem_map.mp hc with ⟨kv, hkv, hfst⟩
    exact h (List.any_eq_true.mpr ⟨kv, hkv, beq_iff_eq.mpr hfst⟩)

lemma mem_keys_pyUpdate (d u : List (String × String)) (k : String) :
    k ∈ (pyUpdate d u).map Prod.fst ↔ k ∈ d.map Prod.fst ∨ k ∈ u.map Prod.fst := by
  induction u generalizing d with
  | nil => simp [pyUpdate]
  | cons hd tl ih =>
    show k ∈ (pyUpdate (dictSet d hd.1 hd.2) tl).map Prod.fst ↔ _
    rw [ih, keys_dictSet]
    simp [or_assoc, or_comm, or_left_comm, eq_comm]

lemma lookup_pyUpdate_not_mem (d u : List (String × String)) (k : String)
    (h : k ∉ u.map Prod.fst) : (pyUpdate d u).lookup k = d.lookup k := by
  induction u generalizing d with
  | nil => rfl
  | cons hd tl ih =>
    show (pyUpdate (dictSet d hd.1 hd.2) tl).lookup k = _
    have h1 : k ∉ tl.map Prod.fst := fun hc => h (List.mem_cons_of_mem _ hc)
    have h2 : k ≠ hd.1 := fun hc => by
      exact h (by rw [hc]; exact List.mem_map_of_mem Prod.fst (List.mem_cons_self hd tl))
    rw [ih _ h1, lookup_dictSet_ne d hd.1 hd.2 k h2]

lemma lookup_pyUpdate_mem (d u : List (String × String)) (k v : String)
    (hnd : (u.map Prod.fst).Nodup) (hmem : (k, v) ∈ u) :
    (pyUpdate d u).lookup k = some v := by
  induction u generalizing d with
  | nil => simp at hmem
  | cons hd tl ih =>
    show (pyUpdate (dictSet d hd.1 hd.2) tl).lookup k = some v
    rcases List.mem_cons.mp hmem with rfl | htl
    · have hknot : k ∉ tl.map Prod.fst := by
        have := List.nodup_cons.mp hnd
        exact this.1
      rw [lookup_pyUpdate_not_mem _ tl k hknot]
      exact lookup_dictSet_self d k v
    · exact ih _ (List.nodup_cons.mp hnd).2 htl

/-! ## Exit paths of the step command (batch_cli.py lines 248-295)

The tail of `step` is two `try` blocks:

```
try:                       # lines 248-282
    batch.launch_job(...)
except Exception as e:
    print(e)
    <sync metadata>
    sys.exit(METAFLOW_EXIT_DISALLOW_RETRY)
try:                       # lines 283-295
    batch.wait(..., echo=echo)
except BatchKilledException:
    traceback.print_exc()
    sys.exit(METAFLOW_EXIT_DISALLOW_RETRY)
finally:
    <sync metadata>
```

We embed Python control flow (normal completion, a propagating exception, a
propagating `SystemExit` from `sys.exit`) together with the chronological list
of observable actions, and the `try`/`except`/`finally` combinators with
Python's semantics (a `finally` runs even while an exception or `SystemExit`
is propagating; an `except Exception` clause does not catch `SystemExit`). -/

/-- Exceptions that `batch.launch_job` or `batch.wait` can raise:
`BatchKilledException`, an exception raised by the relaying `echo` callback,
or any other failure. All derive from Python's `Exception`. -/
inductive Exn where
  | batchKilled
  | echoFailure (msg : String)
  | otherFailure (msg : String)
  deriving DecidableEq, Repr

/-- Process exit signals that appear in the source. `disallowRetry` is the
distinguished retry-disallowed status; `allowRetry` stands for any
retry-permitting status (reserved, unused by this code). -/
inductive ExitSignal where
  | disallowRetry
  | allowRetry
  deriving DecidableEq, Repr

/-- Modelled from the spec: `METAFLOW_EXIT_DISALLOW_RETRY` is imported from
`metaflow.exception`, which is not part of the sources; the spec describes it
only as the distinguished retry-disallowed exit status, so it is modelled as
that abstract signal rather than a numeric code. -/
def METAFLOW_EXIT_DISALLOW_RETRY : ExitSignal := .disallowRetry

/-- Observable actions of lines 248-295, in chronological order:
a submission attempt (`batch.launch_job`), a wait (`batch.wait`), `print(e)`,
`traceback.print_exc()`, and `sync_local_metadata_from_datastore(...)`. -/
inductive Event where
  | launch
  | wait
  | printErr (e : Exn)
  | printExc
  | sync
  deriving DecidableEq, Repr

/-- How a Python block terminates: falls through normally, with an exception
propagating, or with `SystemExit` (from `sys.exit`) propagating. -/
inductive PyFlow where
  | normal
  | exn (e : Exn)
  | sysExit (code : ExitSignal)
  deriving DecidableEq, Repr

/-- A block's observable actions in order, together with how it terminated. -/
structure PyResult where
  events : List Event
  flow : PyFlow
  deriving DecidableEq, Repr

/-- Sequencing of two Python statements: the second runs only if the first
completed normally. -/
def pySeq (a b : PyResult) : PyResult :=
  match a.flow with
  | .normal => ⟨a.events ++ b.events, b.flow⟩
  | _ => a

/-- `try ... except ...`: the handler (selected by exception type) runs only
when the body raised an exception it matches; `SystemExit` is not an
`Exception` and is never caught. -/
def pyTryExcept (body : PyResult) (handler : Exn → Option PyResult) : PyResult :=
  match body.flow with
  | .exn e =>
    match handler e with
    | some h => ⟨body.events ++ h.events, h.flow⟩
    | none => body
  | _ => body

/-- `try ... finally fin`: `fin` always runs; if `fin` itself completes
normally the body's termination (normal, exception or `SystemExit`) stands. -/
def pyFinally (body fin : PyResult) : PyResult :=
  match fin.flow with
  | .normal => ⟨body.events ++ fin.events, body.flow⟩
  | _ => ⟨body.events ++ fin.events, fin.flow⟩

/-- The environment decides how the two backend calls behave: whether
`batch.launch_job` and `batch.wait` return or raise, and with what. -/
inductive Outcome where
  | ok
  | raises (e : Exn)
  deriving DecidableEq, Repr

/-- `batch.launch_job(...)` (lines 250-273): the submission attempt happens,
then the call either returns or raises. -/
def launch_job (r : Outcome) : PyResult :=
  match r with
  | .ok => ⟨[.launch], .normal⟩
  | .raises e => ⟨[.launch], .exn e⟩

/-- `batch.wait(stdout_location, stderr_location, echo=echo)` (line 284): the
monitoring happens, then the call either returns or raises (a
`BatchKilledException`, an exception escaping the `echo` callback, or any
other monitoring failure). -/
def batch_wait (r : Outcome) : PyResult :=
  match r with
  | .ok => ⟨[.wait], .normal⟩
  | .raises e => ⟨[.wait], .exn e⟩

/-- `sync_local_metadata_from_datastore(ctx.obj.metadata, task_datastore)`
(lines 276-280 and 290-295). Designed never to raise. -/
def sync_local_metadata_from_datastore : PyResult := ⟨[.sync], .normal⟩

/-- `print(e)` (line 275). -/
def printErrRes (e : Exn) : PyResult := ⟨[.printErr e], .normal⟩

/-- `traceback.print_exc()` (line 287). -/
def print_exc : PyResult := ⟨[.printExc], .normal⟩

/-- `sys.exit(code)`: raises `SystemExit`. -/
def sys_exit (code : ExitSignal) : PyResult := ⟨[], .sysExit code⟩

/-- Lines 248-282: `try: batch.launch_job(...) except Exception as e: ...`.
`except Exception` catches every modelled exception. -/
def launchBlock (launchRes : Outcome) : PyResult :=
  pyTryExcept (launch_job launchRes)
    (fun e => some (pySeq (printErrRes e)
      (pySeq sync_local_metadata_from_datastore
        (sys_exit METAFLOW_EXIT_DISALLOW_RETRY))))

/-- Lines 283-295: `try: batch.wait(...) except BatchKilledException: ...
finally: ...`. Only `BatchKilledException` is caught. -/
def waitBlock (waitRes : Outcome) : PyResult :=
  pyFinally
    (pyTryExcept (batch_wait waitRes)
      (fun e =>
        match e with
        | .batchKilled => some (pySeq print_exc (sys_exit METAFLOW_EXIT_DISALLOW_RETRY))
        | _ => none))
    sync_local_metadata_from_datastore

/-- The step command's tail (lines 248-295): the launch block, then — only if
it fell through normally — the wait block. -/
def stepRun (launchRes waitRes : Outcome) : PyResult :=
  pySeq (launchBlock launchRes) (waitBlock waitRes)

/-- Recognizer for the metadata-sync action. -/
def isSync : Event → Bool
  | .sync => true
  | _ => false

/-- Recognizer for the submission attempt. -/
def isLaunch : Event → Bool
  | .launch => true
  | _ => false

/-! ## Claim theorems -/

/-- Claim C1: for every exit path of the step operation — successful
submission and monitoring, submission failure, external kill reported during
wait, or any other failure raised during wait (including an exception raised
by the log-relaying echo callback) — `sync_local_metadata_from_datastore` is
executed exactly once before the process terminates or the failure
propagates. -/
theorem step_sync_exactly_once (launchRes waitRes : Outcome) :
    ((stepRun launchRes waitRes).events.countP isSync) = 1 := by
  cases launchRes with
  | raises e => rfl
  | ok =>
    cases waitRes with
    | ok => rfl
    | raises e => cases e <;> rfl

/-- Claim C4: if `batch.launch_job` raises any error, the step operation does
not retry the submission (exactly one submission attempt), runs the metadata
sync exactly once, and terminates the process with the retry-disallowed exit
signal; the full trace is `launch, print(e), sync` followed by
`sys.exit(METAFLOW_EXIT_DISALLOW_RETRY)`. -/
theorem step_submission_failure (e : Exn) (waitRes : Outcome) :
    stepRun (.raises e) waitRes
      = ⟨[.launch, .printErr e, .sync], .sysExit METAFLOW_EXIT_DISALLOW_RETRY⟩
    ∧ ((stepRun (.raises e) waitRes).events.countP isLaunch) = 1
    ∧ ((stepRun (.raises e) waitRes).events.countP isSync) = 1 :=
  ⟨rfl, rfl, rfl⟩

/-- Claim C5: if the completion wait raises `BatchKilledException`, the step
operation records a diagnostic trace (`traceback.print_exc()`), runs the
metadata sync exactly once, does not retry (single submission attempt), and
terminates the process with the retry-disallowed exit signal. -/
theorem step_killed_disallow_retry :
    stepRun .ok (.raises .batchKilled)
      = ⟨[.launch, .wait, .printExc, .sync], .sysExit METAFLOW_EXIT_DISALLOW_RETRY⟩
    ∧ Event.printExc ∈ (stepRun .ok (.raises .batchKilled)).events
    ∧ ((stepRun .ok (.raises .batchKilled)).events.countP isSync) = 1
    ∧ ((stepRun .ok (.raises .batchKilled)).events.countP isLaunch) = 1 :=
  ⟨rfl, by decide, rfl, rfl⟩

/-- Claim C7: any failure raised during the completion wait other than
`BatchKilledException` propagates to the caller as-is — it is not caught,
remapped or converted to a process exit — and the metadata sync still runs
before the failure propagates. -/
theorem step_other_failure_propagates (e : Exn) (h : e ≠ .batchKilled) :
    stepRun .ok (.raises e) = ⟨[.launch, .wait, .sync], .exn e⟩
    ∧ ((stepRun .ok (.raises e)).events.countP isSync) = 1 := by
  cases e with
  | batchKilled => exact absurd rfl h
  | echoFailure msg => exact ⟨rfl, rfl⟩
  | otherFailure msg => exact ⟨rfl, rfl⟩

/-- Witness for C7 at a concrete non-kill failure. -/
theorem step_other_failure_propagates_witness :
    stepRun .ok (.raises (.otherFailure "infrastructure fault"))
      = ⟨[.launch, .wait, .sync], .exn (.otherFailure "infrastructure fault")⟩
    ∧ ((stepRun .ok (.raises (.otherFailure "infrastructure fault"))).events.countP isSync) = 1 :=
  step_other_failure_propagates (.otherFailure "infrastructure fault") (by decide)

/-- Claim C10: the submission-failure path and the killed-externally path
terminate the process with the identical exit signal value
(`METAFLOW_EXIT_DISALLOW_RETRY`), so the two retry-disallowed outcomes are
indistinguishable at the process-exit interface. -/
theorem exit_signal_submission_eq_killed (e : Exn) (waitRes : Outcome) :
    (stepRun (.raises e) waitRes).flow = .sysExit METAFLOW_EXIT_DISALLOW_RETRY
    ∧ (stepRun .ok (.raises .batchKilled)).flow = .sysExit METAFLOW_EXIT_DISALLOW_RETRY
    ∧ (stepRun (.raises e) waitRes).flow = (stepRun .ok (.raises .batchKilled)).flow :=
  ⟨rfl, rfl, rfl⟩

/-- Claim C3: for every string `s` and chunk ceiling `c > 0` (fixed to
`30 * 1024` in the source), the encoder produces exactly
`ceil(len(s) / c) = (len(s) + c - 1) / c` chunks (0 chunks when `s` is empty),
the `j`-th chunk being `s[j*c : j*c + c]` — of size `c` for every chunk but
possibly the final one — under key `METAFLOW_INPUT_PATHS_j` with increasing
index, and concatenating the chunk values in key order reproduces `s`; in
particular a 45,000-byte value yields two chunks of sizes 30,720 and 14,280
and a reconstruction expression referencing both keys in order. -/
theorem splitVars_spec (c : Nat) (s : List Char) (hc : 0 < c) :
    (splitVars c s).length = (s.length + c - 1) / c
    ∧ (s = [] → splitVars c s = [])
    ∧ splitVars c s = (List.range ((s.length + c - 1) / c)).map
        (fun j => (mkInputPathsKey j, (s.drop (j * c)).take c))
    ∧ ((splitVars c s).map Prod.snd).flatten = s
    ∧ (∀ j, j < (s.length + c - 1) / c →
        ((s.drop (j * c)).take c).length = min c (s.length - j * c))
    ∧ (∀ j, j + 1 < (s.length + c - 1) / c →
        ((s.drop (j * c)).take c).length = c)
    ∧ (splitVars c s).map Prod.fst = (List.range ((s.length + c - 1) / c)).map mkInputPathsKey
    ∧ (splitVars (30 * 1024) (List.replicate 45000 'a')).map (fun kv => kv.2.length)
        = [30720, 14280]
    ∧ reconstructionExpr (splitVars (30 * 1024) (List.replicate 45000 'a'))
        = "$\x7bMETAFLOW_INPUT_PATHS_0\x7d$\x7bMETAFLOW_INPUT_PATHS_1\x7d" := by
  have hsc : (0 : Nat) < 30 * 1024 := by norm_num
  have hdiv : ((List.replicate 45000 'a').length + 30 * 1024 - 1) / (30 * 1024) = 2 := by
    rw [List.length_replicate]
  have hrange : List.range 2 = [0, 1] := by decide
  have hkey : splitVars (30 * 1024) (List.replicate 45000 'a')
      = [(mkInputPathsKey 0,
            ((List.replicate 45000 'a').drop (0 * (30 * 1024))).take (30 * 1024)),
         (mkInputPathsKey 1,
            ((List.replicate 45000 'a').drop (1 * (30 * 1024))).take (30 * 1024))] := by
    rw [splitVars_eq_range _ hsc, hdiv, hrange]
    rfl
  refine ⟨?_, ?_, splitVars_eq_range c hc s, ?_, ?_, ?_, ?_, ?_, ?_⟩
  · rw [splitVars_eq_range c hc s]
    simp
  · intro hs
    subst hs
    rw [splitVars_eq_range c hc]
    have h0 : ((List.length ([] : List Char)) + c - 1) / c = 0 :=
      Nat.div_eq_of_lt (by simp; omega)
    rw [h0]
    rfl
  · rw [splitVars_map_snd c hc]
    exact chunkList_flatten c hc s
  · intro j hj
    simp [List.length_take, List.length_drop]
  · intro j hj
    have h1 : (j + 2) * c ≤ s.length + c - 1 :=
      (Nat.le_div_iff_mul_le hc).mp (by omega)
    have h3 : (j + 2) * c = j * c + 2 * c := by ring
    have h4 : c ≤ s.length - j * c := by omega
    simp [List.length_take, List.length_drop]
    omega
  · rw [splitVars_eq_range c hc s, List.map_map]
    rfl
  · rw [hkey]
    norm_num [List.length_take, List.length_drop, List.length_replicate]
  · rw [hkey]
    decide

/-- Witness for C3 at the concrete ceiling 30720 and a concrete string. -/
theorem splitVars_spec_witness :
    (0 : Nat) < 30 * 1024
    ∧ ((splitVars (30 * 1024) ['p', 'q']).map Prod.snd).flatten = ['p', 'q'] :=
  ⟨by decide, (splitVars_spec (30 * 1024) ['p', 'q'] (by decide)).2.2.2.1⟩

/-- Claim C8: if the input-paths parameter value is empty or absent, the
encoder produces no chunks (`split_vars` stays `None`), the parameter is left
unmodified, and the reconstruction expression for an empty chunk mapping is
empty. -/
theorem encodeInputPaths_empty_or_absent :
    encodeInputPaths none = (none, none)
    ∧ encodeInputPaths (some "") = (none, some "")
    ∧ reconstructionExpr [] = "" :=
  ⟨rfl, rfl, rfl⟩

/-- Claim C9: the input-paths encoding is total — for every input (absent, or
a string of any length and content) the encoder, with its single potential
Python failure point (`range` with zero step) modelled explicitly, completes
without error at the source's chunk ceiling. -/
theorem encodeInputPaths_total (input_paths : Option String) :
    encodeInputPathsChecked max_size input_paths = .ok (encodeInputPaths input_paths) := by
  cases input_paths with
  | none => rfl
  | some s =>
    by_cases h : s.isEmpty
    · simp [encodeInputPathsChecked, encodeInputPaths, h]
    · simp [encodeInputPathsChecked, encodeInputPaths, h, max_size]

/-- Claim C2: for every retry count `n > 0`, and a step whose decorators
declare a retry policy, the step operation looks up the policy's
`minutes_between_retries` (defaulting to one minute when the attribute is
unspecified), emits the human-readable notice, and then blocks for exactly
`minutes * 60` seconds before submitting; for `n = 0` it does not block. -/
theorem retryBackoff_spec (decos : List Decorator) (n : Nat)
    (d : Decorator) (ds : List Decorator)
    (hd : decos.filter (fun x => x.name == "retry") = d :: ds) :
    (0 < n → retryBackoff decos n =
      .ok [.notice (d.minutes_between_retries.getD 1),
           .sleep (d.minutes_between_retries.getD 1 * 60)])
    ∧ retryBackoff decos 0 = .ok [] := by
  constructor
  · intro hn
    simp [retryBackoff, hd, hn.ne']
  · simp [retryBackoff, hd]

/-- Witness for C2: a declared 3-minute policy on retry number 2 sleeps 180
seconds. -/
theorem retryBackoff_spec_witness :
    (0 : Nat) < 2
    ∧ retryBackoff [⟨"retry", some 3, []⟩] 2 = .ok [.notice 3, .sleep 180] :=
  ⟨by decide,
   (retryBackoff_spec [⟨"retry", some 3, []⟩] 2 ⟨"retry", some 3, []⟩ [] rfl).1 (by decide)⟩

/-- Claim C6: the environment mapping passed to the backend is the declared
step environment updated by the encoder's chunk mapping: its key set is the
union of the two key sets (no declared key is dropped), declared bindings off
the chunk keys are preserved, and every chunk binding is present — the chunk
variables augment rather than replace the declared environment. -/
theorem stepEnv_merge (decos : List Decorator) (sv : List (String × String))
    (k v : String) :
    (k ∈ (stepEnv decos (some sv)).map Prod.fst
        ↔ k ∈ (declaredEnv decos).map Prod.fst ∨ k ∈ sv.map Prod.fst)
    ∧ (k ∉ sv.map Prod.fst →
        (stepEnv decos (some sv)).lookup k = (declaredEnv decos).lookup k)
    ∧ ((sv.map Prod.fst).Nodup → (k, v) ∈ sv →
        (stepEnv decos (some sv)).lookup k = some v) := by
  unfold stepEnv
  rcases eq_or_ne sv [] with rfl | hsv
  · simp
  · have hne : sv.isEmpty = false := by
      cases sv with
      | nil => exact absurd rfl hsv
      | cons hd tl => rfl
    simp only [hne, Bool.false_eq_true, if_false]
    exact ⟨mem_keys_pyUpdate _ sv k,
           fun h => lookup_pyUpdate_not_mem _ sv k h,
           fun hnd hm => lookup_pyUpdate_mem _ sv k v hnd hm⟩

/-- Witness for C6: a declared variable is preserved and a chunk variable is
added. -/
theorem stepEnv_merge_witness :
    (stepEnv [⟨"environment", none, [("A", "1")]⟩]
        (some [("METAFLOW_INPUT_PATHS_0", "p0")])).lookup "A"
      = (declaredEnv [⟨"environment", none, [("A", "1")]⟩]).lookup "A"
    ∧ (stepEnv [⟨"environment", none, [("A", "1")]⟩]
        (some [("METAFLOW_INPUT_PATHS_0", "p0")])).lookup "METAFLOW_INPUT_PATHS_0"
      = some "p0" :=
  ⟨(stepEnv_merge [⟨"environment", none, [("A", "1")]⟩]
      [("METAFLOW_INPUT_PATHS_0", "p0")] "A" "p0").2.1 (by decide),
   (stepEnv_merge [⟨"environment", none, [("A", "1")]⟩]
      [("METAFLOW_INPUT_PATHS_0", "p0")] "METAFLOW_INPUT_PATHS_0" "p0").2.2
      (by decide) (by decide)⟩

end MetaflowBatch
